import Mathlib

/-!
Shallow embedding of the Terminus Veil: Blood Price simulation core
(src/game/*.py, src/main.py) and verification of the frozen claims.

Python integers are embedded as Int (Python `//` is floor division, hence
Int.fdiv); Python sets as Finset; Python lists as List; Python dicts that
preserve insertion order as association lists.  Random draws are passed in
explicitly: `random.randint(lo, hi)` becomes `pyRandint lo hi r` for an
oracle value `r`, and `random.random() < c` coin flips become explicit
Bool oracle arguments.
-/

namespace TV

/-- Python random.randint lo hi (inclusive on both ends), with the draw
supplied by the oracle value r.  For lo ≤ hi the result ranges over
[lo, hi]. -/
def pyRandint (lo hi : Int) (r : Nat) : Int :=
  lo + ((r % (hi + 1 - lo).toNat : Nat) : Int)

/-- Grid of tile characters, as produced by the dungeon generator:
'#' wall, '.' floor, '>' exit. -/
def Grid := List (List Char)

/-- Number of columns: len(game_map[0]) in the Python sources. -/
def gridW (g : Grid) : Nat := (g.headD []).length

/-- Number of rows: len(game_map) in the Python sources. -/
def gridH (g : Grid) : Nat := g.length

/-- Tile lookup game_map[y][x].  All call sites in the sources index
in-bounds coordinates; out-of-bounds defaults to '#' (the spec's
"out-of-bounds is WALL" convention). -/
def tileAt (g : Grid) (x y : Int) : Char :=
  if 0 ≤ x ∧ 0 ≤ y then (((g.getD y.toNat []).getD x.toNat '#')) else '#'

/-- SacrificeType enum from src/game/sacrifice.py. -/
inductive SacrificeType where
  | blood | sight | memory | wealth | agility | soul | sanity | hope | future | family
deriving DecidableEq, Repr

/-- ItemType enum from src/game/items.py. -/
inductive ItemType where
  | health_potion | gold | magic_scroll | weapon
deriving DecidableEq, Repr

/-- Item record from src/game/items.py (position, type, stacked value). -/
structure Item where
  x : Int
  y : Int
  item_type : ItemType
  value : Int := 1
deriving DecidableEq, Repr

/-- Inventory from src/game/items.py: items is an insertion-ordered
association list mirroring the Python dict, gold a separate counter. -/
structure Inventory where
  items : List (ItemType × Int) := []
  gold : Int := 0
deriving DecidableEq, Repr

/-- Directions that Player.disabled_movements may contain. -/
structure DisabledMoves where
  up : Bool := false
  down : Bool := false
  left : Bool := false
  right : Bool := false
deriving DecidableEq, Repr

/-- Player record from src/game/player.py, including the always-reset
sacrifice attributes.  crit_chance and surprise_damage are quarter/half
valued floats in Python, embedded exactly as rationals. -/
structure Player where
  x : Int
  y : Int
  hp : Int := 100
  max_hp : Int := 100
  attack_power : Int := 10
  inventory : Inventory := {}
  crit_chance : ℚ := 0
  sight_radius_reduction : Int := 0
  disabled_movements : DisabledMoves := {}
  temp_attack_buff : Int := 0
  temp_buff_turns : Int := 0
  movement_penalty : Int := 0
  hp_regeneration : Int := 0
  surprise_damage : ℚ := 1
  vampire_touch : Bool := false
  can_use_potions : Bool := true
deriving DecidableEq, Repr

/-- GameState from src/game/combat.py. -/
structure GameState where
  game_over : Bool := false
  victory : Bool := false
  current_level : Int := 1
  score : Int := 0
  item_spawn_bonus : Int := 0
  monster_speed_buff : Int := 0
deriving DecidableEq, Repr

/-- SacrificeSystem counters from src/game/sacrifice.py (altar list is
tracked separately where needed). -/
structure SacrificeSystem where
  player_sacrifices : SacrificeType → Nat := fun _ => 0
  sacrifices_required : Int := 1
  total_sacrifices_made : Int := 0

/-- Map state touched by sacrifices: the tile grid and the visibility
tracker's explored set (src/game/game_map.py, src/game/fov.py). -/
structure GMap where
  tiles : Grid
  explored : Finset (Int × Int) := ∅

/-- Combined simulation state threaded through apply_sacrifice_effect. -/
structure World where
  sys : SacrificeSystem
  player : Player
  game_state : GameState
  gmap : GMap

/-- SacrificeSystem.can_use_exit (src/game/sacrifice.py lines 243-249). -/
def can_use_exit (s : SacrificeSystem) : Bool :=
  s.total_sacrifices_made ≥ s.sacrifices_required

/-- All (x, y) coordinates of the grid, as enumerated by the FUTURE
branch's double loop over range(len(tiles)) and range(len(tiles[0])). -/
def allCoords (g : Grid) : Finset (Int × Int) :=
  (Finset.range (gridH g) ×ˢ Finset.range (gridW g)).image
    (fun p => (Int.ofNat p.2, Int.ofNat p.1))

/-- Count stored for key t in the insertion-ordered association list
mirroring the Python dict; 0 when absent (dict.get(t, 0)). -/
def lookupC : List (ItemType × Int) → ItemType → Int
  | [], _ => 0
  | (k, c) :: rest, t => if k = t then c else lookupC rest t

/-- Decrement-then-delete-if-nonpositive on the association list: the
shared `items[t] -= 1; if items[t] <= 0: del items[t]` idiom of
sacrifice.py lines 201-203 and items.py lines 119-121. -/
def decItems (l : List (ItemType × Int)) (t : ItemType) : List (ItemType × Int) :=
  match l with
  | [] => []
  | (k, c) :: rest =>
    if k = t then (if c - 1 ≤ 0 then rest else (k, c - 1) :: rest)
    else (k, c) :: decItems rest t

/-- SacrificeSystem.apply_sacrifice_effect (src/game/sacrifice.py lines
140-241).  soulChoice supplies the random.choice index drawn in the SOUL
branch; the returned message string is not modelled. -/
def apply_sacrifice_effect (t : SacrificeType) (soulChoice : Nat) (w : World) : World :=
  let sys := { w.sys with
    player_sacrifices := fun u => if u = t then w.sys.player_sacrifices u + 1
                                  else w.sys.player_sacrifices u,
    total_sacrifices_made := w.sys.total_sacrifices_made + 1 }
  let w := { w with sys := sys }
  match t with
  | .blood =>
    let hp_loss : Int := max 10 (w.player.max_hp.fdiv 7)
    let max_hp : Int := max 30 (w.player.max_hp - hp_loss)
    { w with player := { w.player with
        max_hp := max_hp,
        hp := min w.player.hp max_hp,
        attack_power := w.player.attack_power + 5 } }
  | .sight =>
    { w with player := { w.player with
        sight_radius_reduction := w.player.sight_radius_reduction + 2,
        crit_chance := w.player.crit_chance + 1/4 } }
  | .memory =>
    { w with
      gmap := { w.gmap with explored := ∅ },
      game_state := { w.game_state with
        item_spawn_bonus := w.game_state.item_spawn_bonus + 100 } }
  | .wealth =>
    let gold_loss := w.player.inventory.gold.fdiv 2
    { w with player := { w.player with
        inventory := { w.player.inventory with
          gold := w.player.inventory.gold - gold_loss },
        temp_attack_buff := w.player.temp_attack_buff + 10,
        temp_buff_turns := 15 } }
  | .agility =>
    { w with player := { w.player with
        movement_penalty := w.player.movement_penalty + 1,
        max_hp := w.player.max_hp + 10,
        hp := w.player.hp + 10 } }
  | .soul =>
    let inv := w.player.inventory
    let inv :=
      if inv.items ≠ [] then
        let key := (inv.items.getD (soulChoice % inv.items.length) (.gold, 0)).1
        let cnt : Int := lookupC inv.items key
        if cnt > 0 then { inv with items := decItems inv.items key } else inv
      else inv
    let max_hp : Int := w.player.max_hp + 10
    { w with player := { w.player with
        inventory := inv,
        attack_power := w.player.attack_power + 3,
        max_hp := max_hp,
        hp := min max_hp (w.player.hp + 10) } }
  | .sanity =>
    { w with
      game_state := { w.game_state with
        monster_speed_buff := w.game_state.monster_speed_buff + 1 },
      player := { w.player with surprise_damage := 2 } }
  | .hope =>
    { w with
      sys := { w.sys with sacrifices_required := w.sys.sacrifices_required + 1 },
      player := { w.player with
        hp_regeneration := w.player.hp_regeneration + 2 } }
  | .future =>
    let score_loss := w.game_state.score.fdiv 4
    { w with
      game_state := { w.game_state with
        score := max 0 (w.game_state.score - score_loss) },
      gmap := { w.gmap with
        explored := w.gmap.explored ∪ allCoords w.gmap.tiles } }
  | .family =>
    { w with player := { w.player with
        can_use_potions := false,
        vampire_touch := true } }

/-- Fold a whole run of sacrifice applications over the world. -/
def applySeq (l : List (SacrificeType × Nat)) (w : World) : World :=
  match l with
  | [] => w
  | (t, r) :: rest => applySeq rest (apply_sacrifice_effect t r w)

/-- Fresh SacrificeSystem (SacrificeSystem.__init__, lines 94-99). -/
def initSystem : SacrificeSystem := {}

/-- Concrete world used for counterexamples and witnesses. -/
def w1 : World :=
  { sys := { initSystem with total_sacrifices_made := 1 },
    player := { x := 1, y := 1 },
    game_state := {},
    gmap := { tiles := [] } }

/-- Monster record from src/game/monster.py (symbol/name fields are
presentation only and omitted). -/
structure Monster where
  x : Int
  y : Int
  max_hp : Int
  hp : Int
  attack_power : Int
  is_alive : Bool := true
  turns_since_last_move : Int := 0
deriving DecidableEq, Repr

/-- Monster.take_damage (monster.py lines 37-51): clamp hp at 0 and flip
is_alive when hp reaches 0; returns the death flag. -/
def Monster.take_damage (m : Monster) (damage : Int) : Monster × Bool :=
  let hp := max 0 (m.hp - damage)
  if hp ≤ 0 then ({ m with hp := hp, is_alive := false }, true)
  else ({ m with hp := hp }, false)

/-- Monster.attack (monster.py lines 53-66): the rolled damage, 0 when
dead.  r supplies the randint draw. -/
def Monster.attack (m : Monster) (r : Nat) : Int :=
  if m.is_alive = false then 0
  else pyRandint (max 1 (m.attack_power - 2)) (m.attack_power + 2) r

/-- Player.get_effective_attack (player.py lines 96-102). -/
def Player.get_effective_attack (p : Player) : Int :=
  p.attack_power + p.temp_attack_buff

/-- Player.take_damage (player.py lines 72-78). -/
def Player.take_damage (p : Player) (damage : Int) : Player :=
  { p with hp := max 0 (p.hp - damage) }

/-- CombatSystem.player_attack_monster (combat.py lines 16-50): damage
roll, vampiric healing, then damage application.  Returns the attacker,
the target and the rolled damage (messages are not modelled). -/
def player_attack_monster (p : Player) (m : Monster) (r : Nat) :
    Player × Monster × Int :=
  if m.is_alive = false then (p, m, 0)
  else
    let base_damage := p.get_effective_attack
    let damage := pyRandint (max 1 (base_damage - 2)) (base_damage + 3) r
    let p :=
      if p.vampire_touch then
        { p with hp := min p.max_hp (p.hp + damage.fdiv 3) }
      else p
    (p, (m.take_damage damage).1, damage)

/-- Insert/accumulate into the association list mirroring
`self.items[t] += value` / `self.items[t] = value` of Inventory.add_item
(items.py lines 96-100); a new key is appended at the end, preserving
dict insertion order. -/
def updItems (l : List (ItemType × Int)) (t : ItemType) (v : Int) :
    List (ItemType × Int) :=
  match l with
  | [] => [(t, v)]
  | (k, c) :: rest =>
    if k = t then (k, c + v) :: rest else (k, c) :: updItems rest t v

/-- Inventory.add_item (items.py lines 84-101): gold goes to the gold
counter, everything else stacks in the dict. -/
def add_item (inv : Inventory) (it : Item) : Inventory :=
  if it.item_type = .gold then { inv with gold := inv.gold + it.value }
  else { inv with items := updItems inv.items it.item_type it.value }

/-- Count of a specific item type (Inventory.get_item_count, items.py
lines 125-134). -/
def getCount (inv : Inventory) (t : ItemType) : Int :=
  lookupC inv.items t

/-- Item.use (items.py lines 37-73), applied to the player.  r1 picks the
scroll effect (random.choice over three entries), r2 the scroll heal
roll. -/
def Item.use (it : Item) (p : Player) (r1 r2 : Nat) : Player :=
  match it.item_type with
  | .health_potion =>
    let heal := min 25 (p.max_hp - p.hp)
    { p with hp := p.hp + heal }
  | .magic_scroll =>
    match r1 % 3 with
    | 0 => { p with hp := min p.max_hp (p.hp + pyRandint 10 30 r2) }
    | 1 => { p with attack_power := p.attack_power + 2 }
    | _ => p
  | .weapon => { p with attack_power := p.attack_power + 5 }
  | .gold => p

/-- Inventory.use_item (items.py lines 103-123): None when the type is
absent or its stored count is ≤ 0; otherwise apply a temporary
Item(0, 0, t) to the player and decrement the stored count, deleting the
entry when it reaches 0. -/
def use_item (inv : Inventory) (t : ItemType) (p : Player) (r1 r2 : Nat) :
    Option (Inventory × Player) :=
  if getCount inv t ≤ 0 then none
  else
    some ({ inv with items := decItems inv.items t },
          (Item.mk 0 0 t 1).use p r1 r2)

/-- An add_item or use_item call, with its random draws. -/
inductive InvOp where
  | add (it : Item)
  | use (t : ItemType) (r1 r2 : Nat)

/-- Run a sequence of inventory operations against an inventory and a
player (a failed use_item leaves both unchanged, as the Python method
returns before mutating anything). -/
def applyInvOps : List InvOp → Inventory × Player → Inventory × Player
  | [], s => s
  | (.add it) :: rest, (inv, p) => applyInvOps rest (add_item inv it, p)
  | (.use t r1 r2) :: rest, (inv, p) =>
    match use_item inv t p r1 r2 with
    | none => applyInvOps rest (inv, p)
    | some s => applyInvOps rest s

/-- Predicate on operations: every added item carries a positive value
(true of every Item the game spawns: gold rolls randint(5, 20), all
other spawns use value 1). -/
def opAddsPositive : InvOp → Prop
  | .add it => 1 ≤ it.value
  | .use _ _ _ => True

/-- Altar record from src/game/sacrifice.py (symbol and prompt texts are
presentation only and omitted). -/
structure Altar where
  x : Int
  y : Int
  used : Bool
  level : Int := 1
  sacrifice_options : List SacrificeType := []
deriving DecidableEq, Repr

/-- SacrificeSystem.get_altar_at (sacrifice.py lines 125-138): first
altar at the position whose used flag is still false. -/
def get_altar_at (altars : List Altar) (x y : Int) : Option Altar :=
  altars.find? (fun a => a.x = x && a.y = y && !a.used)

/-- Player.move (player.py lines 38-70) as a fallible computation.
The movement-penalty branch evaluates `random.random()`, but the module
game.player never imports random at module level (only can_crit imports
it, locally), so any move with movement_penalty > 0 raises NameError
before the roll is compared; that is embedded as the error case. -/
def Player.move (p : Player) (dx dy : Int) (g : Grid) :
    Except String (Player × Bool) :=
  if dx > 0 ∧ p.disabled_movements.right then .ok (p, false)
  else if dx < 0 ∧ p.disabled_movements.left then .ok (p, false)
  else if dy > 0 ∧ p.disabled_movements.down then .ok (p, false)
  else if dy < 0 ∧ p.disabled_movements.up then .ok (p, false)
  else if p.movement_penalty > 0 then
    .error "NameError: name random is not defined"
  else if 0 ≤ p.x + dx ∧ p.x + dx < (gridW g : Int)
      ∧ 0 ≤ p.y + dy ∧ p.y + dy < (gridH g : Int)
      ∧ tileAt g (p.x + dx) (p.y + dy) ≠ '#' then
    .ok ({ p with x := p.x + dx, y := p.y + dy }, true)
  else .ok (p, false)

/-- Concrete player (fresh Player(0, 0)) for witnesses. -/
def p0 : Player := { x := 0, y := 0 }

/-- Player with one AGILITY sacrifice worth of movement penalty. -/
def p1 : Player := { x := 0, y := 0, movement_penalty := 1 }

/-- Player with rightward movement disabled. -/
def pDis : Player := { x := 0, y := 0, disabled_movements := { right := true } }

/-- Concrete 5-wide, 3-tall all-floor grid. -/
def gAll : Grid :=
  [['.', '.', '.', '.', '.'],
   ['.', '.', '.', '.', '.'],
   ['.', '.', '.', '.', '.']]

/-- Concrete already-consumed altar. -/
def altarUsed : Altar := { x := 2, y := 2, used := true }

/-- Concrete inventory holding two health potions. -/
def inv2 : Inventory := { items := [(ItemType.health_potion, 2)] }

/-- Concrete goblin-stat monster for witnesses. -/
def m0 : Monster := { x := 1, y := 0, max_hp := 20, hp := 20, attack_power := 5 }

/-- DungeonGenerator._split_space (dungeon_generator.py lines 71-106).
Random draws come off the front of the rng list: the split-axis
random.choice([True, False]) is the parity of a draw, randint draws use
pyRandint.  fuel bounds the recursion depth (the Python recursion
terminates because every split strictly shrinks the split dimension). -/
def splitSpace (fuel : Nat) (x y w h m : Int) (rng : List Nat) :
    List (Int × Int × Int × Int) × List Nat :=
  match fuel with
  | 0 => ([], rng)
  | fuel + 1 =>
    if w < m * 2 ∨ h < m * 2 then
      let room_w := max 3 (w - 2)
      let room_h := max 3 (h - 2)
      let rx := x + pyRandint 0 (max 0 (w - room_w)) (rng.headD 0)
      let ry := y + pyRandint 0 (max 0 (h - room_h)) (rng.tail.headD 0)
      ([(rx, ry, room_w, room_h)], rng.tail.tail)
    else if (rng.headD 0) % 2 = 0 then
      let sp := pyRandint m (h - m) (rng.tail.headD 0)
      let res1 := splitSpace fuel x y w sp m rng.tail.tail
      let res2 := splitSpace fuel x (y + sp) w (h - sp) m res1.2
      (res1.1 ++ res2.1, res2.2)
    else
      let sp := pyRandint m (w - m) (rng.tail.headD 0)
      let res1 := splitSpace fuel x y sp h m rng.tail.tail
      let res2 := splitSpace fuel (x + sp) y (w - sp) h m res1.2
      (res1.1 ++ res2.1, res2.2)

/-- Loop body of FOVCalculator._has_line_of_sight (fov.py lines 121-138):
Bresenham stepping, returning false at the first wall tile that is not
the start point (the check runs BEFORE the target-reached break, so the
target tile itself is tested).  fuel = dx + dy + 1 iterations always
suffice: every iteration before the target steps x and/or y once. -/
def losLoop (g : Grid) (x1 y1 x2 y2 xinc yinc dx dy : Int)
    (err x y : Int) (fuel : Nat) : Bool :=
  match fuel with
  | 0 => true
  | fuel + 1 =>
    if ¬ (x = x1 ∧ y = y1) ∧ tileAt g x y = '#' then false
    else if x = x2 ∧ y = y2 then true
    else
      let e2 := 2 * err
      let e1 := if e2 > -dy then err - dy else err
      let nx := if e2 > -dy then x + xinc else x
      let ne := if e2 < dx then e1 + dx else e1
      let ny := if e2 < dx then y + yinc else y
      losLoop g x1 y1 x2 y2 xinc yinc dx dy ne nx ny fuel

/-- FOVCalculator._has_line_of_sight (fov.py lines 101-138). -/
def has_line_of_sight (g : Grid) (x1 y1 x2 y2 : Int) : Bool :=
  let dx : Int := (x2 - x1).natAbs
  let dy : Int := (y2 - y1).natAbs
  losLoop g x1 y1 x2 y2 (if x1 < x2 then 1 else -1) (if y1 < y2 then 1 else -1)
    dx dy (dx - dy) x1 y1 ((x2 - x1).natAbs + (y2 - y1).natAbs + 1)

/-- The points the Bresenham loop of _has_line_of_sight visits, from
(x, y) up to and including the target, with the same stepping. -/
def bresLoop (x2 y2 xinc yinc dx dy : Int) (err x y : Int) (fuel : Nat) :
    List (Int × Int) :=
  match fuel with
  | 0 => []
  | fuel + 1 =>
    if x = x2 ∧ y = y2 then [(x, y)]
    else
      let e2 := 2 * err
      let e1 := if e2 > -dy then err - dy else err
      let nx := if e2 > -dy then x + xinc else x
      let ne := if e2 < dx then e1 + dx else e1
      let ny := if e2 < dx then y + yinc else y
      (x, y) :: bresLoop x2 y2 xinc yinc dx dy ne nx ny fuel

/-- The Bresenham line from (x1, y1) to (x2, y2), inclusive of both ends,
exactly as _has_line_of_sight walks it. -/
def bresPoints (x1 y1 x2 y2 : Int) : List (Int × Int) :=
  let dx : Int := (x2 - x1).natAbs
  let dy : Int := (y2 - y1).natAbs
  bresLoop x2 y2 (if x1 < x2 then 1 else -1) (if y1 < y2 then 1 else -1)
    dx dy (dx - dy) x1 y1 ((x2 - x1).natAbs + (y2 - y1).natAbs + 1)

/-- Wall-freeness of the Bresenham line away from the origin (what the
code actually checks: the target point is included in the test). -/
def clearFromOrigin (g : Grid) (x1 y1 x2 y2 : Int) : Bool :=
  ((bresPoints x1 y1 x2 y2).filter (fun p => p != (x1, y1))).all
    (fun p => tileAt g p.1 p.2 != '#')

/-- Spec-side notion for C4: wall-freeness strictly between origin and
target (the spec claims the target tile's own kind does not block). -/
def clearInterior (g : Grid) (x1 y1 x2 y2 : Int) : Bool :=
  ((bresPoints x1 y1 x2 y2).filter
    (fun p => p != (x1, y1) && p != (x2, y2))).all
    (fun p => tileAt g p.1 p.2 != '#')

/-- FOVCalculator.calculate_simple_fov (fov.py lines 75-99): every
in-window tile within Euclidean distance ≤ radius with line of sight.
The float comparison sqrt(d2) <= radius is embedded exactly as
d2 ≤ radius² (equivalent for the integer radii the game uses). -/
def calculate_simple_fov (g : Grid) (px py r : Int) : List (Int × Int) :=
  let ylo := max 0 (py - r)
  let yhi := min (gridH g : Int) (py + r + 1)
  let xlo := max 0 (px - r)
  let xhi := min (gridW g : Int) (px + r + 1)
  ((List.range (yhi - ylo).toNat).map (fun k : Nat => ylo + (k : Int))).flatMap
    (fun y => ((List.range (xhi - xlo).toNat).map
      (fun k : Nat => xlo + (k : Int))).filterMap
      (fun x =>
        if (x - px) * (x - px) + (y - py) * (y - py) ≤ r * r
            ∧ has_line_of_sight g px py x y = true then
          some (x, y)
        else none))

/-- Concrete 3 × 3 grid with a single wall at (0, 1). -/
def g3 : Grid := [['.', '.', '.'], ['#', '.', '.'], ['.', '.', '.']]

/-- Monster.is_adjacent_to (monster.py lines 136-146): Chebyshev-adjacent
and not the same tile. -/
def Monster.is_adjacent_to (m : Monster) (x y : Int) : Bool :=
  decide ((m.x - x).natAbs ≤ 1) && decide ((m.y - y).natAbs ≤ 1)
    && (m.x != x || m.y != y)

/-- Squared Euclidean distance; Monster.distance_to compares its float
sqrt against 8, embedded exactly as dist2 ≤ 64. -/
def dist2 (ax ay bx bY : Int) : Int :=
  (ax - bx) * (ax - bx) + (ay - bY) * (ay - bY)

/-- The x-major loop of MonsterManager._can_see_player (monster.py lines
287-296): x steps every iteration over range(x1, x2, x_step) — the
endpoint is excluded — while y steps when the error goes negative.  The
Python float error starts at dx/2 and moves by integers, so doubling it
(err2) keeps the comparison exact. -/
def canSeeLoopX (g : Grid) (xstep ystep dx dy : Int) :
    Nat → Int → Int → Int → Bool
  | 0, _, _, _ => true
  | steps + 1, x, y, err2 =>
    if tileAt g x y = '#' then false
    else
      let e := err2 - 2 * dy
      if e < 0 then
        canSeeLoopX g xstep ystep dx dy steps (x + xstep) (y + ystep) (e + 2 * dx)
      else canSeeLoopX g xstep ystep dx dy steps (x + xstep) y e

/-- The y-major loop of _can_see_player (monster.py lines 297-306). -/
def canSeeLoopY (g : Grid) (xstep ystep dx dy : Int) :
    Nat → Int → Int → Int → Bool
  | 0, _, _, _ => true
  | steps + 1, x, y, err2 =>
    if tileAt g x y = '#' then false
    else
      let e := err2 - 2 * dx
      if e < 0 then
        canSeeLoopY g xstep ystep dx dy steps (x + xstep) (y + ystep) (e + 2 * dy)
      else canSeeLoopY g xstep ystep dx dy steps x (y + ystep) e

/-- MonsterManager._can_see_player (monster.py lines 262-308). -/
def can_see_player (m : Monster) (px py : Int) (g : Grid) : Bool :=
  let dx := (px - m.x).natAbs
  let dy := (py - m.y).natAbs
  if dx = 0 ∧ dy = 0 then true
  else
    let xstep : Int := if m.x < px then 1 else -1
    let ystep : Int := if m.y < py then 1 else -1
    if dy < dx then
      canSeeLoopX g xstep ystep (dx : Int) (dy : Int) dx m.x m.y (dx : Int)
    else
      canSeeLoopY g xstep ystep (dx : Int) (dy : Int) dy m.x m.y (dy : Int)

/-- Monster.move_towards (monster.py lines 68-122).  jitter and dropY
supply the two random.random() draws (< 0.3 collapses a diagonal step to
one axis, < 0.5 keeps dx).  The throttle counter mutates even when no
move happens, exactly as the Python method mutates self. -/
def Monster.move_towards (m : Monster) (tx ty : Int) (g : Grid)
    (speed_buff : Int) (jitter dropY : Bool) : Monster × Bool :=
  if m.is_alive = false then (m, false)
  else
    let m := { m with turns_since_last_move := m.turns_since_last_move + 1 }
    if m.turns_since_last_move < max 1 (2 - speed_buff) then (m, false)
    else
      let m := { m with turns_since_last_move := 0 }
      let dx : Int := if tx > m.x then 1 else if tx < m.x then -1 else 0
      let dy : Int := if ty > m.y then 1 else if ty < m.y then -1 else 0
      let dxy :=
        if dx ≠ 0 ∧ dy ≠ 0 ∧ jitter then
          (if dropY then (dx, 0) else (0, dy))
        else (dx, dy)
      let nx := m.x + dxy.1
      let ny := m.y + dxy.2
      if 0 ≤ nx ∧ nx < (gridW g : Int) ∧ 0 ≤ ny ∧ ny < (gridH g : Int)
          ∧ tileAt g nx ny ≠ '#' then
        ({ m with x := nx, y := ny }, true)
      else (m, false)

/-- MonsterManager.get_monster_at (monster.py lines 204-217) as the index
of the first living monster at the position; Python compares the returned
object against the current monster by identity, which the list index
captures (the monster list never holds the same object twice). -/
def get_monster_idx (ms : List Monster) (x y : Int) : Option Nat :=
  ms.findIdx? (fun m => m.x == x && m.y == y && m.is_alive)

/-- Observable per-monster events of the update pass. -/
inductive Event where
  | growl (i : Nat)
  | moved (i : Nat)
deriving DecidableEq, Repr

/-- Body of the update_monsters loop (monster.py lines 239-258) for the
monster at index i; entries before i may already have been updated in
place.  vis is the player's current visible set. -/
def updateMonsterAt (px py : Int) (g : Grid) (vis : List (Int × Int))
    (speed_buff : Int) (jitter dropY : Bool) (ms : List Monster) (i : Nat) :
    List Monster × Option Event :=
  match ms.get? i with
  | none => (ms, none)
  | some m =>
    if m.is_alive = false then (ms, none)
    else if ¬ vis.contains (m.x, m.y) then (ms, none)
    else if m.is_adjacent_to px py then (ms, some (.growl i))
    else if dist2 m.x m.y px py ≤ 64 ∧ can_see_player m px py g then
      let res := m.move_towards px py g speed_buff jitter dropY
      let ms1 := ms.set i res.1
      if res.2 then
        match get_monster_idx ms1 res.1.x res.1.y with
        | some j =>
          if j ≠ i then (ms1.set i { res.1 with x := m.x, y := m.y }, none)
          else (ms1, some (.moved i))
        | none => (ms1, some (.moved i))
      else (ms1, none)
    else (ms, none)

/-- Iterate updateMonsterAt over indices i, i+1, ... for count monsters,
collecting events in order. -/
def updateLoop (px py : Int) (g : Grid) (vis : List (Int × Int))
    (speed_buff : Int) (oracle : Nat → Bool × Bool) :
    Nat → Nat → List Monster → List Monster × List Event
  | 0, _, ms => (ms, [])
  | count + 1, i, ms =>
    let r1 := updateMonsterAt px py g vis speed_buff (oracle i).1 (oracle i).2 ms i
    let r2 := updateLoop px py g vis speed_buff oracle count (i + 1) r1.1
    (r2.1, r1.2.toList ++ r2.2)

/-- MonsterManager.update_monsters (monster.py lines 223-260). -/
def update_monsters (px py : Int) (g : Grid) (vis : List (Int × Int))
    (speed_buff : Int) (oracle : Nat → Bool × Bool) (ms : List Monster) :
    List Monster × List Event :=
  updateLoop px py g vis speed_buff oracle ms.length 0 ms

/-- CombatSystem.monster_attack_player (combat.py lines 52-77): roll the
monster's damage and apply it to the player. -/
def monster_attack_player (m : Monster) (p : Player) (r : Nat) :
    Player × Int :=
  if m.is_alive = false then (p, 0)
  else
    let damage := m.attack r
    (p.take_damage damage, damage)

/-- The attack pass of CombatSystem.process_turn (combat.py lines
103-109): every monster that is alive, Chebyshev-adjacent to the player
and on a visible tile attacks once; returns the attacker indices in
order. -/
def attackLoop (px py : Int) (vis : List (Int × Int)) (dmgOracle : Nat → Nat) :
    List Monster → Nat → Player → Player × List Nat
  | [], _, p => (p, [])
  | m :: rest, i, p =>
    if m.is_alive = true ∧ m.is_adjacent_to px py = true
        ∧ vis.contains (m.x, m.y) = true then
      let r1 := monster_attack_player m p (dmgOracle i)
      let r2 := attackLoop px py vis dmgOracle rest (i + 1) r1.1
      (r2.1, i :: r2.2)
    else attackLoop px py vis dmgOracle rest (i + 1) p

/-- CombatSystem.process_turn (combat.py lines 79-118): one monster
update pass, then the attack pass, then the dead-monster purge.  Returns
the player, the surviving monsters, the update events and the attacker
indices (turn counter and message log retention are bookkeeping not
modelled here). -/
def process_turn (p : Player) (ms : List Monster) (g : Grid)
    (vis : List (Int × Int)) (gs : GameState) (oracle : Nat → Bool × Bool)
    (dmgOracle : Nat → Nat) :
    Player × List Monster × List Event × List Nat :=
  let u := update_monsters p.x p.y g vis gs.monster_speed_buff oracle ms
  let a := attackLoop p.x p.y vis dmgOracle u.1 0 p
  (a.1, (u.1).filter (fun m => m.is_alive), u.2, a.2)

/-- Concrete monster two tiles right of the origin, throttle primed so it
moves on this turn. -/
def mA : Monster :=
  { x := 2, y := 0, max_hp := 20, hp := 20, attack_power := 5,
    turns_since_last_move := 1 }

/-- Concrete monster adjacent to the origin. -/
def mB : Monster := { x := 1, y := 0, max_hp := 20, hp := 20, attack_power := 5 }

/-- Concrete player at the origin. -/
def pC : Player := { x := 0, y := 0 }

/-- Visible set covering the tiles the concrete monsters occupy. -/
def visC : List (Int × Int) := [(2, 0), (1, 0)]

/-- Trivial coin-flip oracle: never jitter. -/
def oC : Nat → Bool × Bool := fun _ => (false, false)

/-- Trivial damage oracle. -/
def dC : Nat → Nat := fun _ => 0

/-- C3: across any run (no restart), sacrifices_required starts at 1,
changes exactly by +1 on a HOPE application and is otherwise untouched
(hence never decreases); total_sacrifices_made goes up by exactly 1 on
every apply_sacrifice_effect call; both counters are monotone along any
sequence of applications; and can_use_exit() is true iff
total_sacrifices_made ≥ sacrifices_required. -/
theorem sacrifice_counters_invariant :
    initSystem.sacrifices_required = 1
    ∧ (∀ (w : World) (t : SacrificeType) (r : Nat),
        (apply_sacrifice_effect t r w).sys.sacrifices_required
          = w.sys.sacrifices_required + (if t = .hope then 1 else 0))
    ∧ (∀ (w : World) (t : SacrificeType) (r : Nat),
        (apply_sacrifice_effect t r w).sys.total_sacrifices_made
          = w.sys.total_sacrifices_made + 1)
    ∧ (∀ (l : List (SacrificeType × Nat)) (w : World),
        w.sys.sacrifices_required ≤ (applySeq l w).sys.sacrifices_required
        ∧ w.sys.total_sacrifices_made ≤ (applySeq l w).sys.total_sacrifices_made)
    ∧ (∀ s : SacrificeSystem,
        can_use_exit s = true ↔ s.total_sacrifices_made ≥ s.sacrifices_required) := by
  have hreq : ∀ (w : World) (t : SacrificeType) (r : Nat),
      (apply_sacrifice_effect t r w).sys.sacrifices_required
        = w.sys.sacrifices_required + (if t = .hope then 1 else 0) := by
    intro w t r
    cases t <;> simp [apply_sacrifice_effect]
  have htot : ∀ (w : World) (t : SacrificeType) (r : Nat),
      (apply_sacrifice_effect t r w).sys.total_sacrifices_made
        = w.sys.total_sacrifices_made + 1 := by
    intro w t r
    cases t <;> simp [apply_sacrifice_effect]
  refine ⟨rfl, hreq, htot, ?_, ?_⟩
  · intro l
    induction l with
    | nil => intro w; exact ⟨le_refl _, le_refl _⟩
    | cons p rest ih =>
      intro w
      have h1 := ih (apply_sacrifice_effect p.1 p.2 w)
      have h2 := hreq w p.1 p.2
      have h3 := htot w p.1 p.2
      constructor
      · calc w.sys.sacrifices_required
            ≤ (apply_sacrifice_effect p.1 p.2 w).sys.sacrifices_required := by
              rw [h2]; split <;> omega
          _ ≤ _ := h1.1
      · calc w.sys.total_sacrifices_made
            ≤ (apply_sacrifice_effect p.1 p.2 w).sys.total_sacrifices_made := by omega
          _ ≤ _ := h1.2
  · intro s
    simp [can_use_exit]

/-- C1 counterexample: starting from sacrifices_required = 1 and
total_sacrifices_made = 1, applying the HOPE sacrifice does NOT leave
total_sacrifices_made unchanged nor make can_use_exit() false: line 153
of sacrifice.py increments the total on every application, so the total
becomes 2, matching the new requirement 2, and the exit stays usable. -/
theorem hope_scenario_cex :
    ¬ ((apply_sacrifice_effect .hope 0 w1).sys.total_sacrifices_made = 1
       ∧ can_use_exit (apply_sacrifice_effect .hope 0 w1).sys = false) := by
  have h1 : (apply_sacrifice_effect .hope 0 w1).sys.total_sacrifices_made = 2 := rfl
  have h2 : can_use_exit (apply_sacrifice_effect .hope 0 w1).sys = true := rfl
  intro h
  rw [h1] at h
  exact absurd h.1 (by norm_num)

/-- C1 (amended): applying the HOPE sacrifice when sacrifices_required
was 1 and total_sacrifices_made was 1 makes sacrifices_required equal 2
and raises hp_regeneration by 2, but it also increments
total_sacrifices_made to 2, so can_use_exit() remains true immediately
afterwards. -/
theorem hope_scenario (w : World) (r : Nat)
    (hreq : w.sys.sacrifices_required = 1)
    (htot : w.sys.total_sacrifices_made = 1) :
    (apply_sacrifice_effect .hope r w).sys.sacrifices_required = 2
    ∧ (apply_sacrifice_effect .hope r w).player.hp_regeneration
        = w.player.hp_regeneration + 2
    ∧ (apply_sacrifice_effect .hope r w).sys.total_sacrifices_made = 2
    ∧ can_use_exit (apply_sacrifice_effect .hope r w).sys = true := by
  refine ⟨?_, rfl, ?_, ?_⟩
  · simp [apply_sacrifice_effect, hreq]
  · simp [apply_sacrifice_effect, htot]
  · simp [apply_sacrifice_effect, can_use_exit, hreq, htot]

/-- Witness for hope_scenario at the concrete world w1. -/
theorem hope_scenario_witness :
    (apply_sacrifice_effect .hope 0 w1).sys.sacrifices_required = 2
    ∧ (apply_sacrifice_effect .hope 0 w1).player.hp_regeneration
        = w1.player.hp_regeneration + 2
    ∧ (apply_sacrifice_effect .hope 0 w1).sys.total_sacrifices_made = 2
    ∧ can_use_exit (apply_sacrifice_effect .hope 0 w1).sys = true :=
  hope_scenario w1 0 rfl rfl

/-- C9: the BLOOD branch sets max_hp to max(30, old − max(10, old // 7))
(floor division), clamps hp to the new max_hp, adds exactly 5 attack
power, and the resulting max_hp is never below 30. -/
theorem blood_sacrifice_effect (w : World) (r : Nat) :
    (apply_sacrifice_effect .blood r w).player.max_hp
      = max 30 (w.player.max_hp - max 10 (w.player.max_hp.fdiv 7))
    ∧ (apply_sacrifice_effect .blood r w).player.hp
      = min w.player.hp (apply_sacrifice_effect .blood r w).player.max_hp
    ∧ (apply_sacrifice_effect .blood r w).player.attack_power
      = w.player.attack_power + 5
    ∧ 30 ≤ (apply_sacrifice_effect .blood r w).player.max_hp := by
  refine ⟨rfl, rfl, rfl, ?_⟩
  exact le_max_left 30 _

/-- Range of pyRandint: for lo ≤ hi the result lies in [lo, hi], matching
Python random.randint. -/
theorem pyRandint_bounds (lo hi : Int) (r : Nat) (h : lo ≤ hi) :
    lo ≤ pyRandint lo hi r ∧ pyRandint lo hi r ≤ hi := by
  unfold pyRandint
  have hn : 0 < (hi + 1 - lo).toNat := by omega
  have h1 : r % (hi + 1 - lo).toNat < (hi + 1 - lo).toNat := Nat.mod_lt _ hn
  have h2 : ((r % (hi + 1 - lo).toNat : Nat) : Int)
      < (((hi + 1 - lo).toNat : Nat) : Int) := by exact_mod_cast h1
  omega

/-- C6: a player attack with effective power B rolls damage in
[max(1, B−2), B+3]; a living monster with power P rolls damage in
[max(1, P−2), P+2]; and both Player.take_damage and Monster.take_damage
leave hp = max(0, hp − damage). -/
theorem damage_roll_bounds :
    (∀ (p : Player) (m : Monster) (r : Nat),
        1 ≤ p.get_effective_attack → m.is_alive = true →
        max 1 (p.get_effective_attack - 2) ≤ (player_attack_monster p m r).2.2
        ∧ (player_attack_monster p m r).2.2 ≤ p.get_effective_attack + 3)
    ∧ (∀ (m : Monster) (r : Nat),
        1 ≤ m.attack_power → m.is_alive = true →
        max 1 (m.attack_power - 2) ≤ m.attack r
        ∧ m.attack r ≤ m.attack_power + 2)
    ∧ (∀ (p : Player) (d : Int), (p.take_damage d).hp = max 0 (p.hp - d))
    ∧ (∀ (m : Monster) (d : Int), ((m.take_damage d).1).hp = max 0 (m.hp - d)) := by
  refine ⟨?_, ?_, ?_, ?_⟩
  · intro p m r hb halive
    have hle : max 1 (p.get_effective_attack - 2) ≤ p.get_effective_attack + 3 :=
      max_le_iff.mpr ⟨by omega, by omega⟩
    have := pyRandint_bounds (max 1 (p.get_effective_attack - 2))
      (p.get_effective_attack + 3) r hle
    simpa [player_attack_monster, halive] using this
  · intro m r hb halive
    have hle : max 1 (m.attack_power - 2) ≤ m.attack_power + 2 :=
      max_le_iff.mpr ⟨by omega, by omega⟩
    have := pyRandint_bounds (max 1 (m.attack_power - 2)) (m.attack_power + 2) r hle
    simpa [Monster.attack, halive] using this
  · intro p d; rfl
  · intro m d
    by_cases h : max 0 (m.hp - d) ≤ 0 <;> simp [Monster.take_damage, h]

/-- Lookup misses when the key is absent from the association list. -/
theorem lookupC_eq_zero (l : List (ItemType × Int)) (t : ItemType)
    (h : t ∉ l.map Prod.fst) : lookupC l t = 0 := by
  induction l with
  | nil => rfl
  | cons e rest ih =>
    obtain ⟨k, c⟩ := e
    simp only [List.map_cons, List.mem_cons] at h
    push_neg at h
    have hk : ¬ k = t := fun hkt => h.1 hkt.symm
    simp only [lookupC, if_neg hk]
    exact ih h.2

/-- Decrement-then-delete drops the looked-up count by exactly one when
the keys are distinct (the dict invariant) and the count is positive. -/
theorem lookupC_decItems (l : List (ItemType × Int)) (t : ItemType)
    (hn : (l.map Prod.fst).Nodup) (hpos : 0 < lookupC l t) :
    lookupC (decItems l t) t = lookupC l t - 1 := by
  induction l with
  | nil => simp [lookupC] at hpos
  | cons e rest ih =>
    obtain ⟨k, c⟩ := e
    simp only [List.map_cons, List.nodup_cons] at hn
    by_cases hk : k = t
    · subst hk
      have hdec : decItems ((k, c) :: rest) k
          = if c - 1 ≤ 0 then rest else (k, c - 1) :: rest := by
        simp [decItems]
      have hl1 : lookupC ((k, c) :: rest) k = c := by simp [lookupC]
      rw [hl1] at hpos
      rw [hdec, hl1]
      by_cases hc1 : c - 1 ≤ 0
      · rw [if_pos hc1, lookupC_eq_zero rest k hn.1]
        omega
      · rw [if_neg hc1]
        simp [lookupC]
    · simp only [lookupC, if_neg hk] at hpos
      simp only [decItems, if_neg hk, lookupC, if_neg hk]
      exact ih hn.2 hpos

/-- updItems preserves positive counts when the added value is positive. -/
theorem updItems_pos (l : List (ItemType × Int)) (t : ItemType) (v : Int)
    (hl : ∀ e ∈ l, 0 < e.2) (hv : 0 < v) :
    ∀ e ∈ updItems l t v, 0 < e.2 := by
  induction l with
  | nil =>
    intro e he
    simp only [updItems, List.mem_singleton] at he
    rw [he]; exact hv
  | cons hd rest ih =>
    obtain ⟨k, c⟩ := hd
    have hc : 0 < c := hl (k, c) (List.mem_cons_self _ _)
    have hrest : ∀ e ∈ rest, 0 < e.2 := fun e he => hl e (List.mem_cons_of_mem _ he)
    intro e he
    by_cases hk : k = t
    · simp only [updItems, if_pos hk, List.mem_cons] at he
      rcases he with he | he
      · rw [he]; simpa using by omega
      · exact hrest e he
    · simp only [updItems, if_neg hk, List.mem_cons] at he
      rcases he with he | he
      · rw [he]; exact hc
      · exact ih hrest e he

/-- decItems preserves positive counts. -/
theorem decItems_pos (l : List (ItemType × Int)) (t : ItemType)
    (hl : ∀ e ∈ l, 0 < e.2) :
    ∀ e ∈ decItems l t, 0 < e.2 := by
  induction l with
  | nil => intro e he; simp [decItems] at he
  | cons hd rest ih =>
    obtain ⟨k, c⟩ := hd
    have hc : 0 < c := hl (k, c) (List.mem_cons_self _ _)
    have hrest : ∀ e ∈ rest, 0 < e.2 := fun e he => hl e (List.mem_cons_of_mem _ he)
    intro e he
    by_cases hk : k = t
    · simp only [decItems, if_pos hk] at he
      by_cases hc1 : c - 1 ≤ 0
      · rw [if_pos hc1] at he
        exact hrest e he
      · rw [if_neg hc1] at he
        rcases List.mem_cons.mp he with he | he
        · rw [he]; simpa using by omega
        · exact hrest e he
    · simp only [decItems, if_neg hk] at he
      rcases List.mem_cons.mp he with he | he
      · rw [he]; exact hc
      · exact ih hrest e he

/-- C10 counterexample: the inventory CAN come to store an entry with a
nonpositive count — add_item of a zero-valued item (Item's value field is
an arbitrary int, default 1) stores the entry (WEAPON, 0). -/
theorem inventory_invariant_cex :
    ¬ (∀ (l : List InvOp) (e : ItemType × Int),
        e ∈ (applyInvOps l ({}, p0)).1.items → 0 < e.2) := by
  intro h
  have := h [.add (Item.mk 0 0 .weapon 0)] (.weapon, 0) (by decide)
  exact absurd this (by decide)

/-- C10 (amended): use_item returns None (leaving inventory and player
untouched, as the Python method returns before mutating) whenever the
type is absent or its stored count is ≤ 0; on success it decrements the
stored count by exactly 1 (removing the entry at 0); and as long as every
added item has value ≥ 1 — true of every item the game spawns — no entry
with count ≤ 0 is ever stored. -/
theorem inventory_use_add :
    (∀ (inv : Inventory) (t : ItemType) (p : Player) (r1 r2 : Nat),
        getCount inv t ≤ 0 → use_item inv t p r1 r2 = none)
    ∧ (∀ (inv : Inventory) (t : ItemType) (p : Player) (r1 r2 : Nat),
        (inv.items.map Prod.fst).Nodup → 0 < getCount inv t →
        ∃ s, use_item inv t p r1 r2 = some s
          ∧ getCount s.1 t = getCount inv t - 1)
    ∧ (∀ (l : List InvOp) (inv : Inventory) (p : Player),
        (∀ e ∈ inv.items, 0 < e.2) → (∀ op ∈ l, opAddsPositive op) →
        ∀ e ∈ (applyInvOps l (inv, p)).1.items, 0 < e.2) := by
  refine ⟨?_, ?_, ?_⟩
  · intro inv t p r1 r2 h
    simp [use_item, h]
  · intro inv t p r1 r2 hn hpos
    have hc : ¬ getCount inv t ≤ 0 := not_le.mpr hpos
    refine ⟨({ inv with items := decItems inv.items t },
             (Item.mk 0 0 t 1).use p r1 r2), ?_, ?_⟩
    · simp [use_item, hc]
    · simpa [getCount] using lookupC_decItems inv.items t hn hpos
  · intro l
    induction l with
    | nil => intro inv p h _ e he; exact h e he
    | cons op rest ih =>
      intro inv p h hops
      have hop := hops op (List.mem_cons_self _ _)
      have hrest : ∀ o ∈ rest, opAddsPositive o :=
        fun o ho => hops o (List.mem_cons_of_mem _ ho)
      cases op with
      | add it =>
        simp only [applyInvOps]
        refine ih (add_item inv it) p ?_ hrest
        intro e he
        unfold add_item at he
        by_cases hg : it.item_type = .gold
        · rw [if_pos hg] at he
          exact h e he
        · rw [if_neg hg] at he
          refine updItems_pos inv.items it.item_type it.value h ?_ e he
          simp only [opAddsPositive] at hop
          omega
      | use t r1 r2 =>
        by_cases hc : getCount inv t ≤ 0
        · have hu : use_item inv t p r1 r2 = none := by simp [use_item, hc]
          simp only [applyInvOps, hu]
          exact ih inv p h hrest
        · have hu : use_item inv t p r1 r2
              = some ({ inv with items := decItems inv.items t },
                      (Item.mk 0 0 t 1).use p r1 r2) := by
            simp [use_item, hc]
          simp only [applyInvOps, hu]
          refine ih _ _ ?_ hrest
          intro e he
          exact decItems_pos inv.items t h e he

/-- Witness for inventory_use_add at a two-potion inventory. -/
theorem inventory_use_add_witness :
    ∃ s, use_item inv2 .health_potion p0 0 0 = some s
      ∧ getCount s.1 .health_potion = getCount inv2 .health_potion - 1 :=
  inventory_use_add.2.1 inv2 .health_potion p0 0 0 (by decide) (by decide)

/-- C8: moves blocked by a wall or map edge and moves in a disabled
direction are silent no-ops returning False, and a consumed altar is
invisible to get_altar_at (so interaction only yields an informational
message); but a move attempted with movement_penalty > 0 is NOT a no-op:
game.player never imports random, so line 58 raises NameError instead of
performing the probability roll. -/
theorem blocked_actions_eval :
    p1.move 1 0 gAll = .error "NameError: name random is not defined"
    ∧ p0.move 0 (-1) gAll = .ok (p0, false)
    ∧ pDis.move 1 0 gAll = .ok (pDis, false)
    ∧ get_altar_at [altarUsed] 2 2 = none := by
  refine ⟨rfl, rfl, rfl, rfl⟩

/-- Witness for damage_roll_bounds at a fresh player and a goblin. -/
theorem damage_roll_bounds_witness :
    (max 1 (p0.get_effective_attack - 2) ≤ (player_attack_monster p0 m0 7).2.2
     ∧ (player_attack_monster p0 m0 7).2.2 ≤ p0.get_effective_attack + 3)
    ∧ (max 1 (m0.attack_power - 2) ≤ m0.attack 3 ∧ m0.attack 3 ≤ m0.attack_power + 2) :=
  ⟨damage_roll_bounds.1 p0 m0 7 (by decide) rfl,
   damage_roll_bounds.2.1 m0 3 (by decide) rfl⟩

/-- splitSpace always produces at least one room when given enough fuel:
every recursive call strictly shrinks w + h because the split point stays
in [m, dim − m] with m ≥ 1. -/
theorem splitSpace_ne_nil :
    ∀ (fuel : Nat) (x y w h m : Int) (rng : List Nat),
    1 ≤ m → 0 ≤ w → 0 ≤ h → (w + h).toNat < fuel →
    (splitSpace fuel x y w h m rng).1 ≠ [] := by
  intro fuel
  induction fuel with
  | zero =>
    intro x y w h m rng _ _ _ hf
    exact absurd hf (Nat.not_lt_zero _)
  | succ fuel ih =>
    intro x y w h m rng hm hw hh hf
    by_cases hterm : w < m * 2 ∨ h < m * 2
    · simp [splitSpace, hterm]
    · by_cases hra : (rng.headD 0) % 2 = 0
      · have hsp := pyRandint_bounds m (h - m) (rng.tail.headD 0) (by omega)
        have h1 : (splitSpace fuel x y w
            (pyRandint m (h - m) (rng.tail.headD 0)) m rng.tail.tail).1 ≠ [] := by
          apply ih <;> omega
        simp only [splitSpace, if_neg hterm, if_pos hra]
        simp only [ne_eq, List.append_eq_nil]
        intro hcontra
        exact h1 hcontra.1
      · have hsp := pyRandint_bounds m (w - m) (rng.tail.headD 0) (by omega)
        have h1 : (splitSpace fuel x y
            (pyRandint m (w - m) (rng.tail.headD 0)) h m rng.tail.tail).1 ≠ [] := by
          apply ih <;> omega
        simp only [splitSpace, if_neg hterm, if_neg hra]
        simp only [ne_eq, List.append_eq_nil]
        intro hcontra
        exact h1 hcontra.1

/-- C7 counterexample: for the 5 × 20 region with minRoomSize 6, only one
dimension is below 2 × minRoomSize, yet the code carves a single room (the
Python condition at line 85 is an `or`, not the claimed `and`). -/
theorem split_space_terminal_cex :
    ¬ (((splitSpace 26 1 1 5 20 6 [0, 0]).1.length = 1)
       ↔ ((5:Int) < 6 * 2 ∧ (20:Int) < 6 * 2)) := by
  intro h
  have h1 : (splitSpace 26 1 1 5 20 6 [0, 0]).1.length = 1 := by decide
  exact absurd (h.mp h1) (by norm_num)

/-- C7 (amended): a region is the terminal single-room case exactly when
AT LEAST ONE of its dimensions is below 2 × minRoomSize; otherwise an
axis is picked at random, a split point is chosen uniformly within
[minRoomSize, dimension − minRoomSize], and both halves are recursed on
(each yielding at least one room). -/
theorem split_space_terminal (x y w h m : Int) (rng : List Nat)
    (hm : 1 ≤ m) (hw : 0 ≤ w) (hh : 0 ≤ h) :
    (splitSpace ((w + h).toNat + 1) x y w h m rng).1.length = 1
      ↔ (w < m * 2 ∨ h < m * 2) := by
  constructor
  · intro hlen
    by_contra hterm
    push_neg at hterm
    have hterm' : ¬ (w < m * 2 ∨ h < m * 2) := by push_neg; exact hterm
    by_cases hra : (rng.headD 0) % 2 = 0
    · have hsp := pyRandint_bounds m (h - m) (rng.tail.headD 0) (by omega)
      have h1 := splitSpace_ne_nil ((w + h).toNat) x y w
        (pyRandint m (h - m) (rng.tail.headD 0)) m rng.tail.tail
        hm hw (by omega) (by omega)
      have h2 := splitSpace_ne_nil ((w + h).toNat) x
        (y + pyRandint m (h - m) (rng.tail.headD 0)) w
        (h - pyRandint m (h - m) (rng.tail.headD 0)) m
        (splitSpace ((w + h).toNat) x y w
          (pyRandint m (h - m) (rng.tail.headD 0)) m rng.tail.tail).2
        hm hw (by omega) (by omega)
      rw [show (w + h).toNat + 1 = (w + h).toNat + 1 from rfl] at hlen
      simp only [splitSpace, if_neg hterm', if_pos hra, List.length_append] at hlen
      rcases List.exists_cons_of_ne_nil h1 with ⟨a, l1, he1⟩
      rcases List.exists_cons_of_ne_nil h2 with ⟨b, l2, he2⟩
      rw [he1, he2] at hlen
      simp [List.length_cons] at hlen
      omega
    · have hsp := pyRandint_bounds m (w - m) (rng.tail.headD 0) (by omega)
      have h1 := splitSpace_ne_nil ((w + h).toNat) x y
        (pyRandint m (w - m) (rng.tail.headD 0)) h m rng.tail.tail
        hm (by omega) hh (by omega)
      have h2 := splitSpace_ne_nil ((w + h).toNat)
        (x + pyRandint m (w - m) (rng.tail.headD 0)) y
        (w - pyRandint m (w - m) (rng.tail.headD 0)) h m
        (splitSpace ((w + h).toNat) x y
          (pyRandint m (w - m) (rng.tail.headD 0)) h m rng.tail.tail).2
        hm (by omega) hh (by omega)
      simp only [splitSpace, if_neg hterm', if_neg hra, List.length_append] at hlen
      rcases List.exists_cons_of_ne_nil h1 with ⟨a, l1, he1⟩
      rcases List.exists_cons_of_ne_nil h2 with ⟨b, l2, he2⟩
      rw [he1, he2] at hlen
      simp [List.length_cons] at hlen
      omega
  · intro hterm
    simp [splitSpace, hterm]

/-- Witness for split_space_terminal at the 5 × 20 region. -/
theorem split_space_terminal_witness :
    (splitSpace (((5:Int) + 20).toNat + 1) 1 1 5 20 6 [0, 0]).1.length = 1
      ↔ ((5:Int) < 6 * 2 ∨ (20:Int) < 6 * 2) :=
  split_space_terminal 1 1 5 20 6 [0, 0] (by norm_num) (by norm_num) (by norm_num)

/-- The blocking loop of _has_line_of_sight equals wall-freeness of the
collected Bresenham points away from the origin. -/
theorem losLoop_eq_all (g : Grid) (x1 y1 x2 y2 xinc yinc dx dy : Int) :
    ∀ (fuel : Nat) (err x y : Int),
    losLoop g x1 y1 x2 y2 xinc yinc dx dy err x y fuel
      = ((bresLoop x2 y2 xinc yinc dx dy err x y fuel).filter
          (fun p => p != (x1, y1))).all (fun p => tileAt g p.1 p.2 != '#') := by
  intro fuel
  induction fuel with
  | zero => intro err x y; rfl
  | succ fuel ih =>
    intro err x y
    simp only [losLoop, bresLoop]
    by_cases horig : x = x1 ∧ y = y1
    · rw [if_neg (fun hc => hc.1 horig)]
      have hdrop : (((x, y) : Int × Int) != (x1, y1)) = false := by
        simp [horig.1, horig.2]
      by_cases htgt : x = x2 ∧ y = y2
      · rw [if_pos htgt, if_pos htgt]
        simp [hdrop]
      · rw [if_neg htgt, if_neg htgt, ih]
        simp [List.filter_cons, hdrop]
    · have hkeep : (((x, y) : Int × Int) != (x1, y1)) = true := by
        simpa [Prod.ext_iff] using horig
      by_cases hwall : tileAt g x y = '#'
      · rw [if_pos ⟨horig, hwall⟩]
        by_cases htgt : x = x2 ∧ y = y2
        · rw [if_pos htgt]
          simp [hkeep, hwall]
        · rw [if_neg htgt]
          simp [List.filter_cons, hkeep, hwall]
      · rw [if_neg (fun hc => hwall hc.2)]
        by_cases htgt : x = x2 ∧ y = y2
        · rw [if_pos htgt, if_pos htgt]
          simp [hkeep, hwall]
        · rw [if_neg htgt, if_neg htgt, ih]
          simp [List.filter_cons, hkeep, hwall]

/-- has_line_of_sight in terms of the Bresenham point list. -/
theorem has_line_of_sight_eq (g : Grid) (x1 y1 x2 y2 : Int) :
    has_line_of_sight g x1 y1 x2 y2 = clearFromOrigin g x1 y1 x2 y2 := by
  unfold has_line_of_sight clearFromOrigin bresPoints
  exact losLoop_eq_all g x1 y1 x2 y2 _ _ _ _ _ _ _ _

/-- Bound extraction from a squared inequality over the integers. -/
theorem abs_le_of_sq_le (a r : Int) (hr : 0 ≤ r) (h : a * a ≤ r * r) :
    -r ≤ a ∧ a ≤ r := by
  constructor <;> nlinarith [mul_self_nonneg (a - r), mul_self_nonneg (a + r)]

/-- Membership in an offset integer range. -/
theorem mem_offset_range (a b v : Int) :
    v ∈ (List.range (b - a).toNat).map (fun k : Nat => a + (k : Int))
      ↔ a ≤ v ∧ v < b := by
  rw [List.mem_map]
  constructor
  · rintro ⟨k, hk, he⟩
    have hlt := List.mem_range.mp hk
    omega
  · intro h
    refine ⟨(v - a).toNat, List.mem_range.mpr ?_, ?_⟩ <;> omega

/-- C4 counterexample: on the 3 × 3 grid with a wall at (0, 1), the wall
tile is at distance 1 from the origin (1, 1) and the Bresenham line has
no wall strictly between them, yet calculate_simple_fov does NOT include
it: line 122 of fov.py tests the target tile itself as blocking. -/
theorem simple_fov_cex :
    ¬ (((0, 1) ∈ calculate_simple_fov g3 1 1 8)
       ↔ (((0:Int) - 1) * ((0:Int) - 1) + ((1:Int) - 1) * ((1:Int) - 1) ≤ 8 * 8
          ∧ clearInterior g3 1 1 0 1 = true)) := by
  intro h
  have h1 : ((0:Int) - 1) * ((0:Int) - 1) + ((1:Int) - 1) * ((1:Int) - 1) ≤ 8 * 8
      ∧ clearInterior g3 1 1 0 1 = true := by decide
  have h2 : (0, 1) ∉ calculate_simple_fov g3 1 1 8 := by decide
  exact h2 (h.mpr h1)

/-- C4 (amended): for every in-bounds tile T and radius r ≥ 0, the
circular mode includes T iff T is within Euclidean distance r of the
origin and the Bresenham line from the origin to T crosses no wall tile
at any point other than the origin itself — the target tile's own kind
DOES block, so a wall tile is visible only if it is the origin. -/
theorem simple_fov_mem (g : Grid) (px py r x y : Int)
    (hr : 0 ≤ r) (hx0 : 0 ≤ x) (hx1 : x < (gridW g : Int))
    (hy0 : 0 ≤ y) (hy1 : y < (gridH g : Int)) :
    (x, y) ∈ calculate_simple_fov g px py r
      ↔ ((x - px) * (x - px) + (y - py) * (y - py) ≤ r * r
         ∧ clearFromOrigin g px py x y = true) := by
  rw [← has_line_of_sight_eq]
  unfold calculate_simple_fov
  constructor
  · intro hmem
    rcases List.mem_flatMap.mp hmem with ⟨yv, hyv, hxmem⟩
    rcases List.mem_filterMap.mp hxmem with ⟨xv, hxv, hsome⟩
    by_cases hcond : (xv - px) * (xv - px) + (yv - py) * (yv - py) ≤ r * r
        ∧ has_line_of_sight g px py xv yv = true
    · rw [if_pos hcond] at hsome
      have hxy : xv = x ∧ yv = y := by
        have := Option.some.inj hsome
        exact ⟨congrArg Prod.fst this, congrArg Prod.snd this⟩
      rw [hxy.1, hxy.2] at hcond
      exact hcond
    · rw [if_neg hcond] at hsome
      exact absurd hsome (by simp)
  · rintro ⟨hdist, hlos⟩
    have hyb := abs_le_of_sq_le (y - py) r hr (by nlinarith [mul_self_nonneg (x - px)])
    have hxb := abs_le_of_sq_le (x - px) r hr (by nlinarith [mul_self_nonneg (y - py)])
    refine List.mem_flatMap.mpr ⟨y, (mem_offset_range _ _ _).mpr ⟨by omega, by omega⟩, ?_⟩
    refine List.mem_filterMap.mpr ⟨x, (mem_offset_range _ _ _).mpr ⟨by omega, by omega⟩, ?_⟩
    rw [if_pos ⟨hdist, hlos⟩]

/-- Witness for simple_fov_mem: the floor tile (2, 1) next to the origin
on the 3 × 3 grid. -/
theorem simple_fov_mem_witness :
    (2, 1) ∈ calculate_simple_fov g3 1 1 8
      ↔ (((2:Int) - 1) * ((2:Int) - 1) + ((1:Int) - 1) * ((1:Int) - 1) ≤ 8 * 8
         ∧ clearFromOrigin g3 1 1 2 1 = true) :=
  simple_fov_mem g3 1 1 8 2 1 (by norm_num) (by norm_num) (by decide)
    (by norm_num) (by decide)

/-- C2: the no-overlap revert fails.  With monsters [mA, mB] (mA at
(2, 0) listed first, mB at (1, 0)) and the player at the origin, mA's
pursuit step lands on mB's tile; get_monster_at scans from the front and
returns the moving monster itself, so the conflict test
`conflicting_monster != monster` fails and the move is NOT reverted: both
monsters end the pass alive on (1, 0). -/
theorem monster_overlap_bug :
    (((update_monsters 0 0 gAll visC 0 oC [mA, mB]).1.get? 0).map
        (fun m => (m.x, m.y, m.is_alive)) = some (1, 0, true))
    ∧ (((update_monsters 0 0 gAll visC 0 oC [mA, mB]).1.get? 1).map
        (fun m => (m.x, m.y, m.is_alive)) = some (1, 0, true)) := by
  decide

/-- Attacker indices produced from position i on are all ≥ i. -/
theorem attackLoop_indices_ge (px py : Int) (vis : List (Int × Int))
    (dmgO : Nat → Nat) :
    ∀ (l : List Monster) (i : Nat) (p : Player),
    ∀ j ∈ (attackLoop px py vis dmgO l i p).2, i ≤ j := by
  intro l
  induction l with
  | nil => intro i p j hj; simp [attackLoop] at hj
  | cons m rest ih =>
    intro i p j hj
    by_cases hc : m.is_alive = true ∧ m.is_adjacent_to px py = true
        ∧ vis.contains (m.x, m.y) = true
    · simp only [attackLoop, if_pos hc] at hj
      rcases List.mem_cons.mp hj with h | h
      · omega
      · have := ih (i + 1) _ j h
        omega
    · simp only [attackLoop, if_neg hc] at hj
      have := ih (i + 1) p j hj
      omega

/-- Each monster index occurs at most once among the attacker indices of
one attack pass. -/
theorem attackLoop_count (px py : Int) (vis : List (Int × Int))
    (dmgO : Nat → Nat) :
    ∀ (l : List Monster) (i : Nat) (p : Player) (j : Nat),
    ((attackLoop px py vis dmgO l i p).2.count j) ≤ 1 := by
  intro l
  induction l with
  | nil => intro i p j; simp [attackLoop]
  | cons m rest ih =>
    intro i p j
    by_cases hc : m.is_alive = true ∧ m.is_adjacent_to px py = true
        ∧ vis.contains (m.x, m.y) = true
    · simp only [attackLoop, if_pos hc]
      by_cases hji : j = i
      · subst hji
        have hz : ((attackLoop px py vis dmgO rest (j + 1)
            (monster_attack_player m p (dmgO j)).1).2.count j) = 0 := by
          rw [List.count_eq_zero]
          intro hmem
          have := attackLoop_indices_ge px py vis dmgO rest (j + 1) _ j hmem
          omega
        simp [List.count_cons, hz]
      · simp [List.count_cons, hji]
        exact ih (i + 1) _ j
    · simp only [attackLoop, if_neg hc]
      exact ih (i + 1) p j

/-- C5 counterexample: with the player at the origin and a single primed
monster two tiles to the right, the monster moves during the update pass
(event moved 0) AND attacks the player in the same process_turn
invocation — pursuit left it freshly adjacent and the attack pass still
runs over it. -/
theorem moved_monster_attacks_cex :
    ¬ (Event.moved 0 ∈ (process_turn pC [mA] gAll visC {} oC dC).2.2.1
       → 0 ∉ (process_turn pC [mA] gAll visC {} oC dC).2.2.2) := by
  decide

/-- C5 (amended): within a single process_turn invocation each monster
resolves at most one attack on the player; a monster that moved during
the update pass MAY additionally attack when its step left it adjacent
and visible. -/
theorem process_turn_attacks_once (p : Player) (ms : List Monster)
    (g : Grid) (vis : List (Int × Int)) (gs : GameState)
    (oracle : Nat → Bool × Bool) (dmgO : Nat → Nat) (i : Nat) :
    ((process_turn p ms g vis gs oracle dmgO).2.2.2.count i) ≤ 1 :=
  attackLoop_count p.x p.y vis dmgO
    (update_monsters p.x p.y g vis gs.monster_speed_buff oracle ms).1 0 p i

end TV
